import Mathlib

/-
  A verification development for the combine-reducers-immutable repository
  (src/combine-reducers-immutable.js): a port of the redux combineReducers
  helper whose composite state is an Immutable Map instead of a plain object.

  Shallow embedding conventions:
  * The JavaScript value undefined is modelled as the Option value none.
    A slice reducer therefore has type Option Val -> Action -> Option Val,
    where a none result models the reducer returning undefined.
  * The Immutable Map is modelled as an insertion-ordered association list
    with unique keys (ImmMap); get returns none for a missing key, set
    replaces an existing binding in place or appends a new one, matching
    the observable behaviour of Immutable.Map get/set as used by the code.
  * The per-combinator mutable unexpectedKeyCache (source line 161) is
    modelled by explicit state passing: combination takes the cache as an
    argument and returns the updated cache.
  * Warnings sent to the diagnostic sink (the warning function, source
    lines 30-40) are modelled as a list of emitted message strings in the
    result of combination.
  * NODE_ENV is read once at module load (source line 47); it is modelled
    by the boolean parameter dev (true means NODE_ENV is not production),
    passed identically to construction and invocation.
  * The randomly generated probe action type of assertReducerSanity
    (source line 115) is modelled by a parameter probeTypeOf : Nat -> String
    giving the string generated at the i-th iteration of the loop.
  * The JS exceptions thrown by the code are modelled with Except: a thrown
    Error carries its message; calling state.withMutations on a plain value
    that is not an Immutable Map (and so lacks that method) is a TypeError,
    modelled by the typeError constructor.
-/

namespace CombineReducersImmutable

/-- JavaScript values that occur as slice states in the scenarios of the
specification: numbers, strings and booleans. The JS value undefined is not a
Val; it is modelled as none in Option Val. -/
inductive Val
  | num (n : Int)
  | str (s : String)
  | bool (b : Bool)
  deriving DecidableEq, Repr

/-- An action: an opaque record with a string discriminant field type.
Source passes the action unchanged to every slice reducer. -/
structure Action where
  type : String
  deriving DecidableEq, Repr

/-- A slice reducer: previous slice state (none models undefined) and an
action to next slice state (none models returning undefined). -/
abbrev Reducer := Option Val → Action → Option Val

/-- The composite state: an insertion-ordered associative container from
slice name to slice value, modelling an Immutable Map. -/
abbrev ImmMap := List (String × Val)

/-- Immutable Map get: the value stored at a key, none (undefined) when the
key is absent. -/
def ImmMap.get (m : ImmMap) (key : String) : Option Val :=
  match m with
  | [] => none
  | (k, v) :: rest => if k = key then some v else ImmMap.get rest key

/-- Immutable Map set: replace the binding of an existing key in place, or
append a new binding at the end. -/
def ImmMap.set (m : ImmMap) (key : String) (v : Val) : ImmMap :=
  match m with
  | [] => [(key, v)]
  | (k, w) :: rest => if k = key then (k, v) :: rest else (k, w) :: ImmMap.set rest key v

/-- The key sequence of the map, in insertion order (keySeq). -/
def ImmMap.keys (m : ImmMap) : List String :=
  m.map Prod.fst

/-- The composite state argument received by the combined reducer: either an
Immutable Map, or some other plain JS value carrying only the type name that
Object.prototype.toString reports for it (source line 76), e.g. Number or
Null. Such plain values do not have a withMutations method. -/
inductive StateVal
  | imap (m : ImmMap)
  | nonMap (typeName : String)
  deriving DecidableEq, Repr

/-- A JS exception: an Error with a message thrown by the source code, or the
TypeError produced by calling state.withMutations on a plain value that lacks
that method. -/
inductive JSErr
  | thrown (message : String)
  | typeError
  deriving DecidableEq, Repr

namespace ActionTypes

/-- Source lines 19-21: the reserved init action type. -/
def INIT : String := "@@redux/INIT"

end ActionTypes

/-- Source lines 50-51: the action name interpolated into the runtime
undefined-result message. An empty type string is falsy in JS, giving the
fallback text, exactly as actionType and the && chain do in the source. -/
def actionNameOf (action : Action) : String :=
  if action.type = "" then "an action" else "\"" ++ action.type ++ "\""

/-- Source lines 49-57: message for a reducer returning undefined for a real
invocation action. -/
def getUndefinedStateErrorMessage (key : String) (action : Action) : String :=
  "Given action " ++ actionNameOf action ++ ", reducer \"" ++ key ++
    "\" returned undefined. To ignore an action, you must explicitly return the previous state."

/-- Source lines 61-63: which argument the shape warning blames, depending on
whether the action is the reserved init action. -/
def argumentName (action : Action) : String :=
  if action.type = ActionTypes.INIT then
    "preloadedState argument passed to createStore"
  else
    "previous state received by the reducer"

/-- Source lines 65-70: message when the registered reducer set is empty. -/
def noValidReducerMessage : String :=
  "Store does not have a valid reducer. Make sure the argument passed to combineReducers is an object whose values are reducers."

/-- Source lines 73-80: message when the composite state is not an Immutable
Map, naming the observed type and the expected keys. -/
def unexpectedTypeMessage (action : Action) (typeName : String) (reducerKeys : List String) : String :=
  "The " ++ argumentName action ++ " has unexpected type of \"" ++ typeName ++
    "\". Expected argument to be an Immutable Map with the following keys: \"" ++
    String.intercalate "\", \"" reducerKeys ++ "\""

/-- Source lines 92-97: the text of the unexpected-keys message the source
builds. The branch building it is unreachable in the real program; see the
comment on getUnexpectedStateShapeWarningMessage. The definition is kept to
document the intended message. -/
def unexpectedKeysMessage (action : Action) (unexpectedKeys reducerKeys : List String) : String :=
  "Unexpected " ++ (if unexpectedKeys.length > 1 then "keys" else "key") ++ " \"" ++
    String.intercalate "\", \"" unexpectedKeys ++ "\" found in " ++ argumentName action ++
    ". Expected to find one of the known reducer keys instead: \"" ++
    String.intercalate "\", \"" reducerKeys ++ "\". Unexpected keys will be ignored."

/-- Source lines 59-99: getUnexpectedStateShapeWarningMessage. Returns the
warning message (none when the JS function returns undefined) together with
the updated unexpectedKeyCache. In the Immutable Map branch the source
computes unexpectedKeys on line 82 as a lazily filtered key Seq, and the
forEach on lines 87-89 appends every not-yet-cached unexpected key to the
cache (the keys are distinct, so caching one key during the single traversal
does not change the predicate for the others, and the eager filter below is
equivalent). The test on line 91, however, reads the length getter of that
lazy Seq, which is undefined: Immutable v3 aliases the deprecated length to
the size of the Seq, and an unforced lazy filter has undefined size, while
v4 has no length getter at all. In JS the comparison of undefined with 0 is
false, so the unexpected-keys message of lines 92-97 is never produced and
the branch returns undefined after updating the cache. -/
def getUnexpectedStateShapeWarningMessage (inputState : StateVal)
    (reducers : List (String × Reducer)) (action : Action)
    (unexpectedKeyCache : List String) : Option String × List String :=
  let reducerKeys := reducers.map Prod.fst
  if reducerKeys.isEmpty then
    (some noValidReducerMessage, unexpectedKeyCache)
  else
    match inputState with
    | StateVal.nonMap typeName =>
        (some (unexpectedTypeMessage action typeName reducerKeys), unexpectedKeyCache)
    | StateVal.imap m =>
        let unexpectedKeys := (ImmMap.keys m).filter fun k =>
          !(reducerKeys.contains k) && !(unexpectedKeyCache.contains k)
        let cache2 := unexpectedKeyCache ++ unexpectedKeys
        (none, cache2)

/-- Source lines 107-112: message for a reducer returning undefined for the
reserved init probe. -/
def initUndefinedMessage (name : String) : String :=
  "Reducer \"" ++ name ++ "\" returned undefined during initialization. " ++
    "If the state passed to the reducer is undefined, you must " ++
    "explicitly return the initial state. The initial state may " ++
    "not be undefined."

/-- Source lines 117-124: message for a reducer returning undefined for the
random unknown-type probe. -/
def probeUndefinedMessage (name : String) : String :=
  "Reducer \"" ++ name ++ "\" returned undefined when probed with a random type. " ++
    "Don\x27t try to handle " ++ ActionTypes.INIT ++ " or other actions in \"redux/*\" " ++
    "namespace. They are considered private. Instead, you must return the " ++
    "current state for any unknown actions, unless it is undefined, " ++
    "in which case you must return the initial state, regardless of the " ++
    "action type. The initial state may not be undefined."

/-- Source lines 101-127: assertReducerSanity. Probes each reducer, in
registration order, with undefined state and the reserved init action, then
with undefined state and a random unknown probe type (probeTypeOf i models
the string generated at the i-th iteration, source line 115). A throw inside
the forEach aborts the loop, so the result is the message of the first
failure, none when every probe yields a defined value. -/
def assertReducerSanity (probeTypeOf : Nat → String) (i : Nat)
    (reducers : List (String × Reducer)) : Option String :=
  match reducers with
  | [] => none
  | (reducerName, reducer) :: rest =>
    match reducer none { type := ActionTypes.INIT } with
    | none => some (initUndefinedMessage reducerName)
    | some _ =>
      match reducer none { type := probeTypeOf i } with
      | none => some (probeUndefinedMessage reducerName)
      | some _ => assertReducerSanity probeTypeOf (i + 1) rest

/-- A candidate value of the mapping passed to combineReducers: a function,
the value undefined, or some other defined non-function value. -/
inductive RVal
  | fn (r : Reducer)
  | undefVal
  | nonFn

/-- Source lines 148-155: keep exactly the entries whose value is a function,
preserving registration order. -/
def filterReducers (reducers : List (String × RVal)) : List (String × Reducer) :=
  match reducers with
  | [] => []
  | (name, RVal.fn r) :: rest => (name, r) :: filterReducers rest
  | _ :: rest => filterReducers rest

/-- Source lines 149-151: in diagnostic mode, one warning per entry whose
value is undefined. -/
def missingReducerWarnings (dev : Bool) (reducers : List (String × RVal)) : List String :=
  if dev then
    reducers.filterMap fun p =>
      match p.2 with
      | RVal.undefVal => some ("No reducer provided for key \"" ++ p.1 ++ "\"")
      | _ => none
  else []

/-- The data closed over by the combined reducer returned by combineReducers:
the filtered reducer mapping, the captured sanity failure message, and the
warnings emitted to the diagnostic sink during construction. -/
structure Combined where
  finalReducers : List (String × Reducer)
  sanityError : Option String
  constructionWarnings : List String

/-- Source lines 145-169: combineReducers. It filters the mapping, runs the
sanity probes under a try/catch, and records (never throws) any failure in
the sanityError field; construction is a total function. -/
def combineReducers (dev : Bool) (probeTypeOf : Nat → String)
    (reducers : List (String × RVal)) : Combined :=
  let finalReducers := filterReducers reducers
  { finalReducers := finalReducers
    sanityError := assertReducerSanity probeTypeOf 0 finalReducers
    constructionWarnings := missingReducerWarnings dev reducers }

/-- Source lines 184-197: the withMutations pass. For each registered slice
name in registration order, read the current value from the transient state,
apply the reducer to it and the action, throw the runtime undefined-result
error when the result is undefined, otherwise write the result back. The
transient accumulates the writes, exactly as transientState does. -/
def runPass (reducers : List (String × Reducer)) (action : Action) (m : ImmMap) :
    Except JSErr ImmMap :=
  match reducers with
  | [] => Except.ok m
  | (reducerName, reducer) :: rest =>
    match reducer (ImmMap.get m reducerName) action with
    | none => Except.error (JSErr.thrown (getUndefinedStateErrorMessage reducerName action))
    | some v => runPass rest action (ImmMap.set m reducerName v)

/-- Source lines 172-197: the combined reducer. Takes the unexpectedKeyCache
(explicit state passing for the per-combinator mutable object), the composite
state argument (none models the caller passing undefined, which the default
parameter replaces with an empty Immutable Map, source line 172) and the
action. Returns the updated cache, the warnings emitted to the diagnostic
sink, and the outcome: first the sticky sanity error is rethrown if present;
then, in diagnostic mode, the shape warning is computed and emitted; finally
the withMutations pass runs (a TypeError for a plain non-Map value, which has
no withMutations method). -/
def combination (dev : Bool) (c : Combined) (unexpectedKeyCache : List String)
    (stateArg : Option StateVal) (action : Action) :
    List String × List String × Except JSErr ImmMap :=
  let state := stateArg.getD (StateVal.imap [])
  match c.sanityError with
  | some e => (unexpectedKeyCache, [], Except.error (JSErr.thrown e))
  | none =>
    let wc :=
      if dev then
        getUnexpectedStateShapeWarningMessage state c.finalReducers action unexpectedKeyCache
      else
        (none, unexpectedKeyCache)
    match state with
    | StateVal.imap m => (wc.2, wc.1.toList, runPass c.finalReducers action m)
    | StateVal.nonMap _ => (wc.2, wc.1.toList, Except.error JSErr.typeError)

/-- A fixed representative of the random namespaced probe type generator of
source line 115. -/
def probeX : Nat → String := fun _ => "@@redux/PROBE_UNKNOWN_ACTION_1.a.2.b.3"

/-- The counter reducer of the concrete specification scenario. Slice values
are always numbers or undefined in the scenario; the catch-all branch for a
non-numeric slice value is never reached there. -/
def counterReducer : Reducer := fun s a =>
  let s0 : Val := s.getD (Val.num 0)
  if a.type = "INC" then
    match s0 with
    | Val.num n => some (Val.num (n + 1))
    | v => some v
  else
    some s0

/-- The name reducer of the concrete specification scenario: echoes its
state, defaulting undefined to the empty string. -/
def nameReducer : Reducer := fun s _ =>
  some (s.getD (Val.str ""))

/-- The bad reducer of the concrete specification scenario: returns undefined
for every input. -/
def badReducer : Reducer := fun _ _ => none

/-- A reducer that is sane (returns a defined value for the init and probe
actions) but returns undefined for the specific action type BOOM. -/
def flakyReducer : Reducer := fun s a =>
  if a.type = "BOOM" then none else some (s.getD (Val.num 0))

/-- The combined reducer of the concrete scenario with the counter and name
slices, built in diagnostic mode. -/
def scenarioCombined : Combined :=
  combineReducers true probeX [("counter", RVal.fn counterReducer), ("name", RVal.fn nameReducer)]

/-- A combined reducer over the single flaky slice, built in production
mode. -/
def flakyCombined : Combined :=
  combineReducers false probeX [("flaky", RVal.fn flakyReducer)]

/-! ### Helper lemmas about the associative container -/

theorem ImmMap.get_set_self (m : ImmMap) (k : String) (v : Val) :
    ImmMap.get (ImmMap.set m k v) k = some v := by
  induction m with
  | nil => simp [ImmMap.set, ImmMap.get]
  | cons p rest ih =>
    obtain ⟨a, b⟩ := p
    by_cases h : a = k
    · simp [ImmMap.set, ImmMap.get, h]
    · simp [ImmMap.set, ImmMap.get, h, ih]

theorem ImmMap.get_set_ne (m : ImmMap) (k k2 : String) (v : Val) (h : k ≠ k2) :
    ImmMap.get (ImmMap.set m k v) k2 = ImmMap.get m k2 := by
  induction m with
  | nil => simp [ImmMap.set, ImmMap.get, h]
  | cons p rest ih =>
    obtain ⟨a, b⟩ := p
    by_cases ha : a = k
    · subst ha
      simp [ImmMap.set, ImmMap.get, h]
    · simp [ImmMap.set, ImmMap.get, ha, ih]

theorem ImmMap.get_eq_some_of_mem_keys (m : ImmMap) (k : String)
    (h : k ∈ ImmMap.keys m) : ∃ v, ImmMap.get m k = some v := by
  induction m with
  | nil => simp [ImmMap.keys] at h
  | cons p rest ih =>
    obtain ⟨a, b⟩ := p
    by_cases ha : a = k
    · exact ⟨b, by simp [ImmMap.get, ha]⟩
    · have hk : k ∈ ImmMap.keys rest := by
        simp [ImmMap.keys] at h ⊢
        rcases h with h | h
        · exact absurd h.symm ha
        · exact h
      obtain ⟨v, hv⟩ := ih hk
      exact ⟨v, by simp [ImmMap.get, ha, hv]⟩

theorem ImmMap.set_get_self (m : ImmMap) (k : String) (v : Val)
    (h : ImmMap.get m k = some v) : ImmMap.set m k v = m := by
  induction m with
  | nil => simp [ImmMap.get] at h
  | cons p rest ih =>
    obtain ⟨a, b⟩ := p
    by_cases ha : a = k
    · simp [ImmMap.get, ha] at h
      simp [ImmMap.set, ha, h]
    · simp [ImmMap.get, ha] at h
      simp [ImmMap.set, ha, ih h]

theorem ImmMap.mem_keys_set (m : ImmMap) (k k2 : String) (v : Val)
    (h : k2 ∈ ImmMap.keys m) : k2 ∈ ImmMap.keys (ImmMap.set m k v) := by
  induction m with
  | nil => simp [ImmMap.keys] at h
  | cons p rest ih =>
    obtain ⟨a, b⟩ := p
    by_cases ha : a = k
    · simpa [ImmMap.set, ImmMap.keys, ha] using h
    · simp [ImmMap.keys] at h
      rcases h with h | h
      · simp [ImmMap.set, ImmMap.keys, ha, h]
      · simp [ImmMap.set, ImmMap.keys, ha]
        exact Or.inr (by simpa [ImmMap.keys] using ih (by simpa [ImmMap.keys] using h))

/-! ### Helper lemmas about strings and messages -/

theorem stringDataAppend (s t : String) : (s ++ t).data = s.data ++ t.data := rfl

/-- The head character of a string, used to separate the three error message
families of the source. -/
def strHead (s : String) : Option Char := s.data.head?

theorem strHead_getUndefinedStateErrorMessage (k : String) (a : Action) :
    strHead (getUndefinedStateErrorMessage k a) = some ('G') := rfl

theorem strHead_initUndefinedMessage (k : String) :
    strHead (initUndefinedMessage k) = some ('R') := rfl

theorem strHead_probeUndefinedMessage (k : String) :
    strHead (probeUndefinedMessage k) = some ('R') := rfl

theorem ne_of_strHead_ne (s t : String) (h : strHead s ≠ strHead t) : s ≠ t :=
  fun he => h (he ▸ rfl)

/-! ### Helper lemmas about the pass and the combined reducer -/

theorem runPass_append (xs ys : List (String × Reducer)) (a : Action) (m : ImmMap) :
    runPass (xs ++ ys) a m =
      match runPass xs a m with
      | Except.error e => Except.error e
      | Except.ok m2 => runPass ys a m2 := by
  induction xs generalizing m with
  | nil => simp [runPass]
  | cons p rest ih =>
    obtain ⟨k, r⟩ := p
    cases h : r (ImmMap.get m k) a with
    | none => simp [runPass, h]
    | some v => simp [runPass, h, ih]

theorem runPass_stops (pre post : List (String × Reducer)) (k : String) (r : Reducer)
    (a : Action) (m m1 : ImmMap) (hpre : runPass pre a m = Except.ok m1)
    (hundef : r (ImmMap.get m1 k) a = none) :
    runPass (pre ++ (k, r) :: post) a m =
      Except.error (JSErr.thrown (getUndefinedStateErrorMessage k a)) := by
  rw [runPass_append, hpre]
  simp [runPass, hundef]

theorem combination_of_sanityError (dev : Bool) (c : Combined) (cache : List String)
    (stateArg : Option StateVal) (action : Action) (e : String)
    (hs : c.sanityError = some e) :
    combination dev c cache stateArg action =
      (cache, [], Except.error (JSErr.thrown e)) := by
  simp [combination, hs]

theorem combination_result (dev : Bool) (c : Combined) (cache : List String)
    (m : ImmMap) (action : Action) (hs : c.sanityError = none) :
    (combination dev c cache (some (StateVal.imap m)) action).2.2 =
      runPass c.finalReducers action m := by
  cases dev <;> simp [combination, hs, getUnexpectedStateShapeWarningMessage]

theorem assertReducerSanity_isSome (probeTypeOf : Nat → String)
    (rs : List (String × Reducer)) :
    ∀ (i j : Nat) (hj : j < rs.length),
      ((rs.get ⟨j, hj⟩).2 none { type := ActionTypes.INIT } = none ∨
        (rs.get ⟨j, hj⟩).2 none { type := probeTypeOf (i + j) } = none) →
      (assertReducerSanity probeTypeOf i rs).isSome := by
  induction rs with
  | nil => intro i j hj; simp at hj
  | cons p rest ih =>
    intro i j hj hbad
    obtain ⟨name, r⟩ := p
    cases h1 : r none { type := ActionTypes.INIT } with
    | none => simp [assertReducerSanity, h1]
    | some v1 =>
      cases h2 : r none { type := probeTypeOf i } with
      | none => simp [assertReducerSanity, h1, h2]
      | some v2 =>
        match j with
        | 0 =>
          exfalso
          simp [List.get] at hbad
          rcases hbad with hb | hb
          · rw [h1] at hb; exact Option.noConfusion hb
          · rw [h2] at hb; exact Option.noConfusion hb
        | j2 + 1 =>
          have hj2 : j2 < rest.length := by
            simpa [Nat.succ_lt_succ_iff] using hj
          have harith : i + (j2 + 1) = (i + 1) + j2 := by omega
          have hbad2 : ((rest.get ⟨j2, hj2⟩).2 none { type := ActionTypes.INIT } = none ∨
              (rest.get ⟨j2, hj2⟩).2 none { type := probeTypeOf ((i + 1) + j2) } = none) := by
            rw [← harith]
            simpa [List.get] using hbad
          have := ih (i + 1) j2 hj2 hbad2
          simpa [assertReducerSanity, h1, h2] using this

theorem runPass_noop (a : Action) (rs : List (String × Reducer)) :
    ∀ (m : ImmMap),
      (∀ k, k ∈ rs.map Prod.fst → k ∈ ImmMap.keys m) →
      (∀ p, p ∈ rs → ∀ v : Val, p.2 (some v) a = some v) →
      runPass rs a m = Except.ok m := by
  induction rs with
  | nil => intro m _ _; rfl
  | cons p rest ih =>
    intro m hsub hnoop
    obtain ⟨k, r⟩ := p
    have hk : k ∈ ImmMap.keys m := hsub k (by simp)
    obtain ⟨v, hv⟩ := ImmMap.get_eq_some_of_mem_keys m k hk
    have hr : r (some v) a = some v := hnoop (k, r) (by simp) v
    have hset : ImmMap.set m k v = m := ImmMap.set_get_self m k v hv
    have hrest := ih m (fun k2 hk2 => hsub k2 (by simp [hk2]))
      (fun p hp v2 => hnoop p (by simp [hp]) v2)
    simp [runPass, hv, hr, hset, hrest]

theorem runPass_frame (a : Action) (rs : List (String × Reducer)) :
    ∀ (m res : ImmMap),
      (rs.map Prod.fst).Nodup →
      runPass rs a m = Except.ok res →
      (∀ k, k ∉ rs.map Prod.fst → ImmMap.get res k = ImmMap.get m k) ∧
      (∀ p, p ∈ rs → ImmMap.get res p.1 = p.2 (ImmMap.get m p.1) a) ∧
      (∀ k, k ∈ ImmMap.keys m → k ∈ ImmMap.keys res) := by
  induction rs with
  | nil =>
    intro m res _ hok
    simp [runPass] at hok
    subst hok
    exact ⟨fun k _ => rfl, fun p hp => absurd hp (List.not_mem_nil p), fun k hk => hk⟩
  | cons p rest ih =>
    intro m res hnodup hok
    obtain ⟨k0, r0⟩ := p
    have hnd := List.nodup_cons.mp (show (k0 :: rest.map Prod.fst).Nodup from hnodup)
    cases h0 : r0 (ImmMap.get m k0) a with
    | none => simp [runPass, h0] at hok
    | some v =>
      have hok2 : runPass rest a (ImmMap.set m k0 v) = Except.ok res := by
        simpa [runPass, h0] using hok
      obtain ⟨F1, F2, F3⟩ := ih (ImmMap.set m k0 v) res hnd.2 hok2
      refine ⟨?_, ?_, ?_⟩
      · intro k hk
        have hk0 : k ≠ k0 := by simp at hk; exact fun he => hk.1 he
        have hkrest : k ∉ rest.map Prod.fst := by simp at hk ⊢; exact hk.2
        rw [F1 k hkrest, ImmMap.get_set_ne m k0 k v (fun he => hk0 he.symm)]
      · intro p hp
        rcases List.mem_cons.mp hp with hp0 | hprest
        · subst hp0
          have hk0rest : k0 ∉ rest.map Prod.fst := hnd.1
          rw [F1 k0 hk0rest]
          simp [ImmMap.get_set_self, h0]
        · have hne : p.1 ≠ k0 := by
            intro he
            exact hnd.1 (he ▸ List.mem_map_of_mem Prod.fst hprest)
          have := F2 p hprest
          rwa [ImmMap.get_set_ne m k0 p.1 v (fun h2 => hne h2.symm)] at this
      · intro k hk
        exact F3 k (ImmMap.mem_keys_set m k0 k v hk)

/-! ### Claim theorems -/

/-- C1: for the reducer mapping of the concrete scenario (counter increments
on INC, name echoes its state), the combined reducer invoked with the empty
container and the INC action yields a container equal to counter 1, name
empty string, and invoked again with that result and INC yields counter 2,
name empty string; the result lists reflect the single pass in registration
order, each slice read from the composite state and its reducer result
written back. -/
theorem combination_inc_scenario :
    combination true scenarioCombined [] (some (StateVal.imap [])) ⟨"INC"⟩ =
      ([], [], Except.ok [("counter", Val.num 1), ("name", Val.str "")]) ∧
    combination true scenarioCombined []
        (some (StateVal.imap [("counter", Val.num 1), ("name", Val.str "")])) ⟨"INC"⟩ =
      ([], [], Except.ok [("counter", Val.num 2), ("name", Val.str "")]) :=
  ⟨rfl, rfl⟩

/-- C2: for every mapping whose filtered reducer list contains, at some
position j, a reducer returning undefined for the init probe or for the
random probe generated at that position, construction (a total function,
never a throw) captures a sticky error, and every subsequent invocation,
regardless of cache, state and action, yields exactly that error, no warning
and an untouched cache; moreover the outcome is the same for an arbitrary
replacement of the reducer list, showing the offending reducer is never
called again. -/
theorem combination_sanity_error_sticky (dev : Bool) (probeTypeOf : Nat → String)
    (reducers : List (String × RVal)) (j : Nat)
    (hj : j < (filterReducers reducers).length)
    (hbad : ((filterReducers reducers).get ⟨j, hj⟩).2 none { type := ActionTypes.INIT } = none ∨
      ((filterReducers reducers).get ⟨j, hj⟩).2 none { type := probeTypeOf j } = none) :
    ∃ e, (combineReducers dev probeTypeOf reducers).sanityError = some e ∧
      ∀ (cache : List String) (stateArg : Option StateVal) (action : Action)
        (rs2 : List (String × Reducer)),
        combination dev (combineReducers dev probeTypeOf reducers) cache stateArg action =
          (cache, [], Except.error (JSErr.thrown e)) ∧
        combination dev
            { combineReducers dev probeTypeOf reducers with finalReducers := rs2 }
            cache stateArg action =
          (cache, [], Except.error (JSErr.thrown e)) := by
  have hb2 : ((filterReducers reducers).get ⟨j, hj⟩).2 none { type := ActionTypes.INIT } = none ∨
      ((filterReducers reducers).get ⟨j, hj⟩).2 none { type := probeTypeOf (0 + j) } = none := by
    simpa [Nat.zero_add] using hbad
  have hsome := assertReducerSanity_isSome probeTypeOf (filterReducers reducers) 0 j hj hb2
  obtain ⟨e, he⟩ := Option.isSome_iff_exists.mp hsome
  have hse : (combineReducers dev probeTypeOf reducers).sanityError = some e := he
  refine ⟨e, hse, ?_⟩
  intro cache stateArg action rs2
  exact ⟨combination_of_sanityError dev _ cache stateArg action e hse,
    combination_of_sanityError dev _ cache stateArg action e hse⟩

/-- Witness for C2: the scenario with the single always-undefined reducer
bad; the combined reducer raises the captured init-probe error for an
arbitrary state and action. -/
theorem combination_sanity_error_sticky_witness :
    combination false (combineReducers false probeX [("bad", RVal.fn badReducer)]) ["c"]
      (some (StateVal.imap [("x", Val.num 1)])) ⟨"Y"⟩ =
    (["c"], [], Except.error (JSErr.thrown (initUndefinedMessage "bad"))) := by
  obtain ⟨e, he, h⟩ := combination_sanity_error_sticky false probeX
    [("bad", RVal.fn badReducer)] 0 (by decide) (Or.inl rfl)
  have he2 : e = initUndefinedMessage "bad" := by
    have hx : (combineReducers false probeX [("bad", RVal.fn badReducer)]).sanityError =
        some (initUndefinedMessage "bad") := rfl
    rw [he] at hx
    exact Option.some.inj hx
  have h2 := (h ["c"] (some (StateVal.imap [("x", Val.num 1)])) ⟨"Y"⟩ []).1
  rw [he2] at h2
  exact h2

/-- C3: if, with a valid combined reducer, the registered slices split as a
prefix that succeeds on the given map producing the transient m1, followed by
a slice whose reducer returns undefined for the action, then the invocation
raises the runtime undefined-result error, whose message contains the slice
name, contains the action type discriminant when it is nonempty, and differs
from both construction-probe messages; the outcome is independent of the
slices after the offending one (no further slices processed) and is an error,
so no new composite state is returned. -/
theorem combination_undefined_result_aborts (dev : Bool) (c : Combined)
    (cache : List String) (pre post : List (String × Reducer)) (k : String) (r : Reducer)
    (m m1 : ImmMap) (action : Action)
    (hval : c.sanityError = none)
    (hsplit : c.finalReducers = pre ++ (k, r) :: post)
    (hpre : runPass pre action m = Except.ok m1)
    (hundef : r (ImmMap.get m1 k) action = none) :
    (combination dev c cache (some (StateVal.imap m)) action).2.2 =
      Except.error (JSErr.thrown (getUndefinedStateErrorMessage k action)) ∧
    (∀ post2, (combination dev { c with finalReducers := pre ++ (k, r) :: post2 } cache
        (some (StateVal.imap m)) action).2.2 =
      Except.error (JSErr.thrown (getUndefinedStateErrorMessage k action))) ∧
    List.IsInfix k.data (getUndefinedStateErrorMessage k action).data ∧
    (action.type ≠ "" →
      List.IsInfix action.type.data (getUndefinedStateErrorMessage k action).data) ∧
    (∀ k2, getUndefinedStateErrorMessage k action ≠ initUndefinedMessage k2 ∧
      getUndefinedStateErrorMessage k action ≠ probeUndefinedMessage k2) := by
  refine ⟨?_, ?_, ?_, ?_, ?_⟩
  · rw [combination_result dev c cache m action hval, hsplit]
    exact runPass_stops pre post k r action m m1 hpre hundef
  · intro post2
    have hval2 : ({ c with finalReducers := pre ++ (k, r) :: post2 } : Combined).sanityError = none := hval
    rw [combination_result dev _ cache m action hval2]
    exact runPass_stops pre post2 k r action m m1 hpre hundef
  · refine ⟨("Given action " ++ actionNameOf action ++ ", reducer \"").data,
      "\" returned undefined. To ignore an action, you must explicitly return the previous state.".data, ?_⟩
    simp [getUndefinedStateErrorMessage, stringDataAppend, List.append_assoc]
  · intro h
    have han : actionNameOf action = "\"" ++ action.type ++ "\"" := by simp [actionNameOf, h]
    refine ⟨("Given action " ++ "\"").data,
      ("\"" ++ ", reducer \"" ++ k ++
        "\" returned undefined. To ignore an action, you must explicitly return the previous state.").data, ?_⟩
    simp [getUndefinedStateErrorMessage, han, stringDataAppend, List.append_assoc]
  · intro k2
    constructor
    · apply ne_of_strHead_ne
      rw [strHead_getUndefinedStateErrorMessage, strHead_initUndefinedMessage]
      decide
    · apply ne_of_strHead_ne
      rw [strHead_getUndefinedStateErrorMessage, strHead_probeUndefinedMessage]
      decide

/-- Witness for C3: the flaky slice returns undefined for the BOOM action and
the invocation yields the runtime undefined-result error for it. -/
theorem combination_undefined_result_aborts_witness :
    (combination false flakyCombined [] (some (StateVal.imap [])) ⟨"BOOM"⟩).2.2 =
      Except.error (JSErr.thrown (getUndefinedStateErrorMessage "flaky" ⟨"BOOM"⟩)) :=
  (combination_undefined_result_aborts false flakyCombined [] [] [] "flaky" flakyReducer
    [] [] ⟨"BOOM"⟩ rfl rfl rfl rfl).1

/-- C4: for every combined reducer, every cache and every action, invoking
with an absent (undefined) composite state gives exactly the same result as
invoking with an empty Immutable Map: the default parameter replaces an
absent state by the empty container. -/
theorem combination_undefined_state_defaults_empty (dev : Bool) (c : Combined)
    (cache : List String) (action : Action) :
    combination dev c cache none action =
      combination dev c cache (some (StateVal.imap [])) action := rfl

/-- C8 fails on the code: in diagnostic mode, invoking the scenario combined
reducer with a composite state containing the unregistered key bogus records
the key in the per-combinator cache but emits no diagnostic at all, because
source line 91 compares the undefined length getter of the lazy filtered key
Seq with 0, making the unexpected-keys message unreachable; the second
invocation with the updated cache is equally silent. The claim (and the
stated intent of the source, which is to preserve the original redux
messages) requires the first invocation to emit exactly one diagnostic
naming bogus. -/
theorem combination_unexpected_key_never_warned :
    combination true scenarioCombined []
        (some (StateVal.imap [("counter", Val.num 0), ("name", Val.str ""), ("bogus", Val.num 7)]))
        ⟨"INC"⟩ =
      (["bogus"], [],
        Except.ok [("counter", Val.num 1), ("name", Val.str ""), ("bogus", Val.num 7)]) ∧
    combination true scenarioCombined ["bogus"]
        (some (StateVal.imap [("counter", Val.num 1), ("name", Val.str ""), ("bogus", Val.num 7)]))
        ⟨"INC"⟩ =
      (["bogus"], [],
        Except.ok [("counter", Val.num 2), ("name", Val.str ""), ("bogus", Val.num 7)]) :=
  ⟨rfl, rfl⟩

/-- C5: for every valid combined reducer and composite state whose key set is
exactly the registered slice names, applying an action that every registered
reducer treats as a no-op (echoes its defined input slice state) yields a
composite state equal in content to the input (here even the same
association list). -/
theorem combination_noop_action_preserves_state (dev : Bool) (c : Combined)
    (cache : List String) (m : ImmMap) (action : Action)
    (hval : c.sanityError = none)
    (hnoop : ∀ p, p ∈ c.finalReducers → ∀ v : Val, p.2 (some v) action = some v)
    (hkeys : ∀ k, k ∈ ImmMap.keys m ↔ k ∈ c.finalReducers.map Prod.fst) :
    (combination dev c cache (some (StateVal.imap m)) action).2.2 = Except.ok m := by
  rw [combination_result dev c cache m action hval]
  exact runPass_noop action c.finalReducers m (fun k hk => (hkeys k).mpr hk) hnoop

/-- Witness for C5: the scenario combined reducer with a NOOP action leaves a
fully populated state unchanged. -/
theorem combination_noop_action_preserves_state_witness :
    (combination true scenarioCombined []
        (some (StateVal.imap [("counter", Val.num 5), ("name", Val.str "hi")])) ⟨"NOOP"⟩).2.2 =
      Except.ok [("counter", Val.num 5), ("name", Val.str "hi")] :=
  combination_noop_action_preserves_state true scenarioCombined []
    [("counter", Val.num 5), ("name", Val.str "hi")] ⟨"NOOP"⟩ rfl
    (by
      intro p hp v
      have hp2 : p ∈ [("counter", counterReducer), ("name", nameReducer)] := hp
      rcases List.mem_cons.mp hp2 with h | h2
      · subst h; rfl
      · rcases List.mem_cons.mp h2 with h | h3
        · subst h; rfl
        · exact absurd h3 (List.not_mem_nil p))
    (fun k => Iff.rfl)

/-- C6: for every successful invocation of the combined reducer on an
Immutable Map state (with distinct registered names, as Object keys are),
every key of the input that is not a registered slice name keeps its original
value in the result, every registered slice name is bound in the result to
the result of its reducer applied to the value the input holds for it, and
every key of the input is still present in the result: unexpected keys are
carried through, not dropped. The input list itself is untouched, the pass
being a pure function of it. -/
theorem combination_frame_preserves_unexpected_keys (dev : Bool) (c : Combined)
    (cache : List String) (m res : ImmMap) (action : Action)
    (hnodup : (c.finalReducers.map Prod.fst).Nodup)
    (hok : (combination dev c cache (some (StateVal.imap m)) action).2.2 = Except.ok res) :
    (∀ k, k ∉ c.finalReducers.map Prod.fst → ImmMap.get res k = ImmMap.get m k) ∧
    (∀ p, p ∈ c.finalReducers → ImmMap.get res p.1 = p.2 (ImmMap.get m p.1) action) ∧
    (∀ k, k ∈ ImmMap.keys m → k ∈ ImmMap.keys res) := by
  cases hs : c.sanityError with
  | some e =>
    rw [combination_of_sanityError dev c cache (some (StateVal.imap m)) action e hs] at hok
    simp at hok
  | none =>
    rw [combination_result dev c cache m action hs] at hok
    exact runPass_frame action c.finalReducers m res hnodup hok

/-- Witness for C6: the unregistered key extra keeps its value across an INC
invocation of the scenario combined reducer. -/
theorem combination_frame_preserves_unexpected_keys_witness :
    ImmMap.get [("counter", Val.num 3), ("extra", Val.num 9), ("name", Val.str "")] "extra" =
      ImmMap.get [("counter", Val.num 2), ("extra", Val.num 9)] "extra" :=
  (combination_frame_preserves_unexpected_keys true scenarioCombined []
    [("counter", Val.num 2), ("extra", Val.num 9)]
    [("counter", Val.num 3), ("extra", Val.num 9), ("name", Val.str "")] ⟨"INC"⟩
    (by decide) rfl).1 "extra" (by decide)

/-- C9: in diagnostic mode, a valid combined reducer with a nonempty reducer
set invoked on a composite state that is not an Immutable Map emits, for
every cache (so also on repeated invocations, with no deduplication), exactly
one type-mismatch warning naming the observed type and the expected keys,
leaves the cache untouched (the unexpected-key check is skipped), and the
diagnostic is non-fatal: the outcome component is identical to the one of
the production-mode invocation, the combining step still being reached (on a
plain value lacking the withMutations method it is the TypeError of that
call, a behaviour of the external container, not of the diagnostic). -/
theorem combination_non_map_state_type_warning (c : Combined) (cache : List String)
    (typeName : String) (action : Action)
    (hval : c.sanityError = none)
    (hne : c.finalReducers ≠ []) :
    combination true c cache (some (StateVal.nonMap typeName)) action =
      (cache, [unexpectedTypeMessage action typeName (c.finalReducers.map Prod.fst)],
        Except.error JSErr.typeError) ∧
    (combination true c cache (some (StateVal.nonMap typeName)) action).2.2 =
      (combination false c cache (some (StateVal.nonMap typeName)) action).2.2 := by
  have hkeys : (c.finalReducers.map Prod.fst).isEmpty = false := by
    cases h : c.finalReducers with
    | nil => exact absurd h hne
    | cons p rest => simp [h]
  constructor
  · simp [combination, hval, getUnexpectedStateShapeWarningMessage, hkeys]
  · simp [combination, hval, getUnexpectedStateShapeWarningMessage, hkeys]

/-- Witness for C9: the scenario combined reducer fed a Number state warns
about the observed type and the expected keys, leaving the cache as it
was. -/
theorem combination_non_map_state_type_warning_witness :
    combination true scenarioCombined ["z"] (some (StateVal.nonMap "Number")) ⟨"INC"⟩ =
      (["z"],
        [unexpectedTypeMessage ⟨"INC"⟩ "Number" (scenarioCombined.finalReducers.map Prod.fst)],
        Except.error JSErr.typeError) :=
  (combination_non_map_state_type_warning scenarioCombined ["z"] "Number" ⟨"INC"⟩ rfl
    (List.cons_ne_nil _ _)).1

/-- C10: construction is a total function into the Combined data (the source
try/catch converts the sanity throw into the captured field, so the
construction call itself raises nothing for any input mapping); the captured
field is exactly the sanity-check outcome, and whenever it holds a failure,
the first and every later use of the returned reducer throws exactly that
failure. -/
theorem combineReducers_never_throws_sticky_error (dev : Bool) (probeTypeOf : Nat → String)
    (reducers : List (String × RVal)) :
    (combineReducers dev probeTypeOf reducers).sanityError =
      assertReducerSanity probeTypeOf 0 (filterReducers reducers) ∧
    ∀ e, (combineReducers dev probeTypeOf reducers).sanityError = some e →
      ∀ (cache : List String) (stateArg : Option StateVal) (action : Action),
        combination dev (combineReducers dev probeTypeOf reducers) cache stateArg action =
          (cache, [], Except.error (JSErr.thrown e)) := by
  refine ⟨rfl, ?_⟩
  intro e he cache stateArg action
  exact combination_of_sanityError dev _ cache stateArg action e he

/-- Witness for C10: the mapping with the single always-undefined reducer bad
yields a reducer whose first use throws the captured init-probe failure. -/
theorem combineReducers_never_throws_sticky_error_witness :
    combination true (combineReducers true probeX [("bad", RVal.fn badReducer)]) [] none ⟨"Z"⟩ =
      ([], [], Except.error (JSErr.thrown (initUndefinedMessage "bad"))) :=
  (combineReducers_never_throws_sticky_error true probeX [("bad", RVal.fn badReducer)]).2
    (initUndefinedMessage "bad") rfl [] none ⟨"Z"⟩

end CombineReducersImmutable
